import Mathlib

/-
  Verification development for the weld plugin (src/plugins/plugins/weld/main.py).

  The embedding below translates the plugin source into Lean:
  - strContains models the Python substring test (pat in s).
  - Json and dumps model the JSON values handled by json.loads / json.dumps
    (default separators, so fields are joined with a comma and a space and the
    key is followed by a colon and a space; double quote and backslash are
    escaped in strings).
  - output models the output function of the plugin: a protocol line on stdout.
  - ContentDir models one content directory: its loose regular files
    (name and byte content), its plain subdirectories, whether the unwelded
    holding directory exists, and the files inside the holding directory.
    Directory entries that are neither regular files nor directories do not
    occur in the model.
  - quarantine / weld_dir / weld_dirS model the weld_dir function; weld_dirS
    keeps the intermediate state when the merge capability (run_weld) raises.
  - Fs is a flat map from directory paths to their ContentDir state.
  - getKey / asStr / jEqStr model Python dictionary indexing, the Path
    constructor on a non-string, and comparison of a decoded value to a
    string literal.
  - resolveDirs, runBody, run model the run function of the plugin; program
    models the module body: run() followed by the unconditional set_result
    emission, which is skipped when run raises.
-/

/-- Python substring containment: pat occurs somewhere inside s. -/
def strContains (s pat : String) : Bool :=
  s.data.tails.any (fun t => pat.data.isPrefixOf t)

/-- Python exceptions that the plugin can raise. -/
inductive PyErr where
  | indexError
  | jsonDecodeError
  | keyError
  | typeError
  | stopIteration
  | attributeError
  | fileNotFoundError
  | runWeldError
  deriving DecidableEq, Repr

/-- JSON values, as produced by json.loads and consumed by json.dumps. -/
inductive Json where
  | null
  | bool (b : Bool)
  | num (n : Int)
  | str (s : String)
  | arr (xs : List Json)
  | obj (fields : List (String × Json))

/-- Escaping of one character inside a JSON string literal. -/
def escapeChar (c : Char) : String :=
  if c = '"' then "\\\""
  else if c = '\\' then "\\\\"
  else String.singleton c

/-- Escaping of a whole string, as json.dumps does for string values. -/
def escape (s : String) : String :=
  String.join (s.data.map escapeChar)

mutual

/-- Model of json.dumps with the default separators. -/
def dumps : Json → String
  | Json.null => "null"
  | Json.bool b => if b then "true" else "false"
  | Json.num n => toString n
  | Json.str s => "\"" ++ escape s ++ "\""
  | Json.arr xs => "[" ++ dumpsList xs ++ "]"
  | Json.obj fs => "\x7b" ++ dumpsObj fs ++ "\x7d"

/-- Serialization of the elements of a JSON array, separated by a comma and a space. -/
def dumpsList : List Json → String
  | [] => ""
  | [x] => dumps x
  | x :: xs => dumps x ++ ", " ++ dumpsList xs

/-- Serialization of the fields of a JSON object, separated by a comma and a space. -/
def dumpsObj : List (String × Json) → String
  | [] => ""
  | [f] => "\"" ++ escape f.1 ++ "\": " ++ dumps f.2
  | f :: fs => "\"" ++ escape f.1 ++ "\": " ++ dumps f.2 ++ ", " ++ dumpsObj fs

end

/-- Model of the output function: the protocol line printed for one event.
    With no data the line is the sentinel followed by the JSON string literal
    of the method name; with data it is the sentinel followed by the JSON
    object with the method name as the single key. -/
def output (method : String) (data : Option Json) : String :=
  match data with
  | none => "%_\"" ++ method ++ "\""
  | some d => "%_" ++ dumps (Json.obj [(method, d)])

/-- Events emitted by the plugin, in emission order. -/
inductive Event where
  | start_process
  | message (payload : Json)
  | end_process
  | set_result (data : Json)

/-- Recognizer for the set_result event. -/
def Event.isSetResult : Event → Bool
  | Event.set_result _ => true
  | _ => false

/-- The protocol line of one event, through the output function. -/
def eventLine : Event → String
  | Event.start_process => output "start_process" none
  | Event.message p => output "message" (some p)
  | Event.end_process => output "end_process" none
  | Event.set_result d => output "set_result" (some d)

/-- One content directory: loose regular files (name and content), plain
    subdirectories, the existence flag of the unwelded holding directory,
    and the files inside the holding directory. -/
structure ContentDir where
  files : List (String × String)
  subdirs : List String
  unweldedExists : Bool
  unwelded : List (String × String)
  deriving DecidableEq, Repr

/-- One move into the holding directory: if the target exists it is removed
    first (os.remove), then the file is renamed into the holding directory. -/
def moveFile (unw : List (String × String)) (e : String × String) : List (String × String) :=
  unw.filter (fun h => !(h.1 == e.1)) ++ [e]

/-- The loop of weld_dir over the snapshot of os.listdir(dir): entries whose
    name contains weld_pack are skipped; every remaining regular file is moved
    into the holding directory. Subdirectories are not in the files field, so
    the is_file test is the restriction of the loop to the files field. -/
def quarantineLoop : ContentDir → List (String × String) → ContentDir
  | acc, [] => acc
  | acc, e :: rest =>
    if strContains e.1 "weld_pack" then quarantineLoop acc rest
    else
      quarantineLoop
        { acc with
          files := acc.files.filter (fun f => !(f.1 == e.1)),
          unwelded := moveFile acc.unwelded e }
        rest

/-- The quarantine phase of weld_dir: create the unwelded directory if absent,
    then run the move loop over the directory listing. -/
def quarantine (d : ContentDir) : ContentDir :=
  quarantineLoop { d with unweldedExists := true } d.files

/-- Overwriting write of one file (ctx.data.save with overwrite): replace the
    entry of that name if present, otherwise append it. -/
def writeFile (fs : List (String × String)) (n c : String) : List (String × String) :=
  if fs.any (fun f => f.1 == n) then
    fs.map (fun f => if f.1 == n then (n, c) else f)
  else fs ++ [(n, c)]

/-- Lookup of one file by name. -/
def getFile (fs : List (String × String)) (n : String) : Option String :=
  (fs.find? (fun f => f.1 == n)).map (fun f => f.2)

/-- Path join, modelling Path.joinpath on relative parts. -/
def joinp (a b : String) : String :=
  a ++ "/" ++ b

/-- The pack list handed to run_weld: for every name listed in the unwelded
    directory, the name joined under dir (the source joins under dir, not
    under the unwelded directory). -/
def weldPacksArg (p : String) (d : ContentDir) : List String :=
  d.unwelded.map (fun e => joinp p e.1)

/-- Model of weld_dir with a total merge capability m: quarantine, then run
    the capability on the pack list and save its output as weld_pack.zip. -/
def weld_dir (m : List String → String) (p : String) (d : ContentDir) : ContentDir :=
  { quarantine d with
    files := writeFile (quarantine d).files "weld_pack.zip"
      (m (weldPacksArg p (quarantine d))) }

/-- Model of weld_dir with a fallible merge capability: on success the
    artifact is written, on failure the post-quarantine state is kept and the
    exception propagates. -/
def weld_dirS (m : List String → Except PyErr String) (p : String) (d : ContentDir) :
    ContentDir × Option PyErr :=
  match m (weldPacksArg p (quarantine d)) with
  | Except.ok art =>
    ({ quarantine d with
       files := writeFile (quarantine d).files "weld_pack.zip" art }, none)
  | Except.error e => (quarantine d, some e)

/-- The filesystem: a flat map from directory paths to directory states. -/
abbrev Fs := List (String × ContentDir)

/-- Lookup of a directory by path. -/
def fsGet (fs : Fs) (p : String) : Option ContentDir :=
  (fs.find? (fun e => e.1 == p)).map (fun e => e.2)

/-- Update of a directory by path. -/
def fsSet (fs : Fs) (p : String) (d : ContentDir) : Fs :=
  if fs.any (fun e => e.1 == p) then
    fs.map (fun e => if e.1 == p then (p, d) else e)
  else fs ++ [(p, d)]

/-- weld_dir on one path of the filesystem: a missing directory makes the
    os.mkdir of the unwelded child raise FileNotFoundError. -/
def weldDirFsS (m : List String → Except PyErr String) (fs : Fs) (p : String) :
    Fs × Option PyErr :=
  match fsGet fs p with
  | none => (fs, some PyErr.fileNotFoundError)
  | some d =>
    match weld_dirS m p d with
    | (d2, r) => (fsSet fs p d2, r)

/-- The loop that runs weld_dir on every directory, stopping at the first
    exception but keeping the state reached so far. -/
def weldAll (m : List String → Except PyErr String) : Fs → List String → Fs × Option PyErr
  | fs, [] => (fs, none)
  | fs, p :: rest =>
    match weldDirFsS m fs p with
    | (fs2, none) => weldAll m fs2 rest
    | (fs2, some e) => (fs2, some e)

/-- Python dictionary indexing arg[k]: KeyError when the key is absent,
    TypeError when the value is not an object. -/
def getKey : Json → String → Except PyErr Json
  | Json.obj fields, k =>
    match fields.find? (fun f => f.1 == k) with
    | some f => Except.ok f.2
    | none => Except.error PyErr.keyError
  | _, _ => Except.error PyErr.typeError

/-- Path(x) on a decoded value: TypeError unless it is a string. -/
def asStr : Json → Except PyErr String
  | Json.str s => Except.ok s
  | _ => Except.error PyErr.typeError

/-- Python equality of a decoded value with a string literal: true exactly for
    the equal string, false for every other value without raising. -/
def jEqStr (j : Json) (s : String) : Bool :=
  match j with
  | Json.str t => t == s
  | _ => false

/-- The path resolution block of run: game_dir, then the datapack directories.
    With an explicit datapack_folder the single joined directory is used.
    Otherwise, on the client side the immediate subdirectories of saves are
    enumerated with next(os.walk(saves_dir)); a missing saves directory makes
    next raise StopIteration, and each discovered save name leads to
    saves_dir.join(entry[0]), which raises AttributeError because Path has no
    join attribute. On the server side the single world/datapacks directory
    is used. -/
def resolveDirs (arg : Json) (fs : Fs) : Except PyErr (String × List String) := do
  let gd ← getKey arg "game_dir"
  let game_dir ← asStr gd
  let cfg ← getKey arg "config"
  let df ← getKey cfg "datapack_folder"
  match df with
  | Json.null =>
    let side ← getKey arg "side"
    if jEqStr side "client" then
      match fsGet fs (joinp game_dir "saves") with
      | none => Except.error PyErr.stopIteration
      | some saves =>
        if saves.subdirs.isEmpty then pure (game_dir, [])
        else Except.error PyErr.attributeError
    else pure (game_dir, [joinp game_dir "world/datapacks"])
  | _ =>
    let s ← asStr df
    pure (game_dir, [joinp game_dir s])

/-- The message payload announcing the weld. -/
def weldingMsg : Json :=
  Json.obj [("contents", Json.obj [("StartProcess", Json.str "Welding packs")]),
            ("level", Json.str "important")]

/-- The message payload announcing success. -/
def successMsg : Json :=
  Json.obj [("contents", Json.obj [("Success", Json.str "Packs welded")]),
            ("level", Json.str "important")]

/-- The events emitted before any directory work. -/
def preEvents : List Event :=
  [Event.start_process, Event.message weldingMsg]

/-- The events emitted after all directories are processed. -/
def postEvents : List Event :=
  [Event.message successMsg, Event.end_process]

/-- The body of run after the shallow check: emit start_process and the
    welding message, resolve the directories, weld every datapack directory
    and then the resourcepacks directory, emit the success message and
    end_process. Every exception propagates with the events and filesystem
    state reached so far. -/
def runBody (arg : Json) (m : List String → Except PyErr String) (fs : Fs) :
    List Event × Fs × Option PyErr :=
  match resolveDirs arg fs with
  | Except.error e => (preEvents, fs, some e)
  | Except.ok gd =>
    match weldAll m fs gd.2 with
    | (fs1, some e) => (preEvents, fs1, some e)
    | (fs1, none) =>
      match weldAll m fs1 [joinp gd.1 "resourcepacks"] with
      | (fs2, some e) => (preEvents, fs2, some e)
      | (fs2, none) => (preEvents ++ postEvents, fs2, none)

/-- Model of the run function. The first argument is sys.argv[1]; argv2 is
    sys.argv[2] together with the outcome of json.loads on it, with none
    standing for a missing second argument (IndexError). The result is the
    list of emitted events, the final filesystem, and the exception if one
    propagated. -/
def run (hook : String) (argv2 : Option (Except PyErr Json))
    (m : List String → Except PyErr String) (fs : Fs) :
    List Event × Fs × Option PyErr :=
  if hook = "on_instance_setup" then
    match argv2 with
    | none => ([], fs, some PyErr.indexError)
    | some (Except.error e) => ([], fs, some e)
    | some (Except.ok arg) =>
      match getKey arg "update_depth" with
      | Except.error e => ([], fs, some e)
      | Except.ok ud =>
        if jEqStr ud "shallow" then ([], fs, none)
        else runBody arg m fs
  else ([], fs, none)

/-- The fixed result object of the module body. -/
def setResultPayload : Json :=
  Json.obj [("main_class_override", Json.null),
            ("jar_path_override", Json.null),
            ("classpath_extension", Json.arr [])]

/-- The data actually handed to output for set_result: the module body applies
    json.dumps first, so output receives the serialized string, not the
    object. -/
def setResultData : Json :=
  Json.str (dumps setResultPayload)

/-- The set_result protocol line the module body emits. -/
def setResultLine : String :=
  output "set_result" (some setResultData)

/-- The set_result protocol line as the specification describes it: the
    sentinel followed by the object whose single key is set_result and whose
    value is the fixed result object itself. -/
def claimedSetResultLine : String :=
  "%_" ++ dumps (Json.obj [("set_result", setResultPayload)])

/-- Model of the module body: run(), then the unconditional set_result
    emission, which is not reached when run raises. -/
def program (hook : String) (argv2 : Option (Except PyErr Json))
    (m : List String → Except PyErr String) (fs : Fs) : List Event × Fs :=
  match (run hook argv2 m fs).2.2 with
  | none => ((run hook argv2 m fs).1 ++ [Event.set_result setResultData],
             (run hook argv2 m fs).2.1)
  | some _ => ((run hook argv2 m fs).1, (run hook argv2 m fs).2.1)

/-- A merge capability that always succeeds with a fixed artifact. -/
def mergeOk : List String → Except PyErr String :=
  fun _ => Except.ok "merged"

/-- A merge capability that always raises. -/
def mergeFail : List String → Except PyErr String :=
  fun _ => Except.error PyErr.runWeldError

/-- A total merge capability with a fixed artifact. -/
def mergeConst : List String → String :=
  fun _ => "merged"

/-- A directory holding one loose file whose name contains weld_pack while
    differing from the reserved artifact name. -/
def dirWeldPackName : ContentDir :=
  { files := [("old_weld_pack", "data")], subdirs := [],
    unweldedExists := false, unwelded := [] }

/-- A directory holding two plain loose pack files. -/
def dirTwoPacks : ContentDir :=
  { files := [("a.zip", "x"), ("b.zip", "y")], subdirs := [],
    unweldedExists := false, unwelded := [] }

/-- A directory holding one plain loose pack file. -/
def dirOnePack : ContentDir :=
  { files := [("a.zip", "content-a")], subdirs := [],
    unweldedExists := false, unwelded := [] }

/-- A directory holding one loose file named like the backup example of the
    implicit substring claim. -/
def dirBackupName : ContentDir :=
  { files := [("my_weld_pack_backup.zip", "backup")], subdirs := [],
    unweldedExists := false, unwelded := [] }

/-- The decoded invocation context of a shallow update. -/
def shallowArg : Json :=
  Json.obj [("update_depth", Json.str "shallow")]

/-- The decoded invocation context of a full client update without a
    datapack_folder override. -/
def clientArg : Json :=
  Json.obj [("update_depth", Json.str "full"), ("game_dir", Json.str "root"),
            ("config", Json.obj [("datapack_folder", Json.null)]),
            ("side", Json.str "client")]

/-- A filesystem whose saves directory holds the save subdirectories A and
    B. -/
def savesFs : Fs :=
  [("root/saves",
    { files := [], subdirs := ["A", "B"], unweldedExists := false, unwelded := [] })]

/-- The quarantine loop never adds loose files: its files are among the files
    of the starting state. -/
theorem ql_files_subset (l : List (String × String)) :
    ∀ (acc : ContentDir) (f : String × String),
      f ∈ (quarantineLoop acc l).files → f ∈ acc.files := by
  induction l with
  | nil => intro acc f h; exact h
  | cons e rest ih =>
    intro acc f h
    simp only [quarantineLoop] at h
    split at h
    · exact ih acc f h
    · have h2 := ih _ f h
      simp only [List.mem_filter] at h2
      exact h2.1

/-- The quarantine loop does not touch the existence flag of the holding
    directory. -/
theorem ql_flag (l : List (String × String)) :
    ∀ acc : ContentDir, (quarantineLoop acc l).unweldedExists = acc.unweldedExists := by
  induction l with
  | nil => intro acc; rfl
  | cons e rest ih =>
    intro acc
    simp only [quarantineLoop]
    split
    · exact ih acc
    · exact ih _

/-- The quarantine loop does not touch the subdirectory list. -/
theorem ql_subdirs (l : List (String × String)) :
    ∀ acc : ContentDir, (quarantineLoop acc l).subdirs = acc.subdirs := by
  induction l with
  | nil => intro acc; rfl
  | cons e rest ih =>
    intro acc
    simp only [quarantineLoop]
    split
    · exact ih acc
    · exact ih _

/-- Every listed entry whose name does not contain weld_pack has its name
    removed from the loose files by the quarantine loop. -/
theorem ql_name_removed (l : List (String × String)) :
    ∀ (acc : ContentDir) (f : String × String), f ∈ l →
      strContains f.1 "weld_pack" = false →
      f.1 ∉ (quarantineLoop acc l).files.map Prod.fst := by
  induction l with
  | nil => intro acc f hf; exact absurd hf (List.not_mem_nil f)
  | cons e rest ih =>
    intro acc f hf hsc
    simp only [quarantineLoop]
    split
    · rcases List.mem_cons.mp hf with he | hr
      · rw [he] at hsc; simp_all
      · exact ih acc f hr hsc
    · rcases List.mem_cons.mp hf with he | hr
      · subst he
        intro hmem
        obtain ⟨g, hg, hg1⟩ := List.mem_map.mp hmem
        have hsub := ql_files_subset rest _ g hg
        simp only [List.mem_filter] at hsub
        rw [hg1] at hsub
        simp at hsub
      · exact ih _ f hr hsc

/-- A file already in the holding directory stays there through the loop as
    long as no listed entry bears the same name. -/
theorem ql_unwelded_stable (l : List (String × String)) :
    ∀ (acc : ContentDir) (f : String × String), f ∈ acc.unwelded →
      (∀ e ∈ l, ¬(e.1 = f.1)) →
      f ∈ (quarantineLoop acc l).unwelded := by
  induction l with
  | nil => intro acc f hf _; exact hf
  | cons e rest ih =>
    intro acc f hf hall
    simp only [quarantineLoop]
    split
    · exact ih acc f hf (fun g hg => hall g (List.mem_cons_of_mem e hg))
    · refine ih _ f ?_ (fun g hg => hall g (List.mem_cons_of_mem e hg))
      unfold moveFile
      refine List.mem_append_left _ ?_
      refine List.mem_filter.mpr ⟨hf, ?_⟩
      have hne : ¬(f.1 = e.1) := fun h => hall e (List.mem_cons_self e rest) h.symm
      simp [hne]

/-- Under distinct listed names, every listed entry whose name does not
    contain weld_pack ends up in the holding directory, with its content. -/
theorem ql_moved (l : List (String × String)) :
    ∀ (acc : ContentDir) (f : String × String), (l.map Prod.fst).Nodup →
      f ∈ l → strContains f.1 "weld_pack" = false →
      f ∈ (quarantineLoop acc l).unwelded := by
  induction l with
  | nil => intro acc f _ hf; exact absurd hf (List.not_mem_nil f)
  | cons e rest ih =>
    intro acc f hnd hf hsc
    rw [List.map_cons] at hnd
    have hnd2 := List.nodup_cons.mp hnd
    simp only [quarantineLoop]
    split
    · rcases List.mem_cons.mp hf with he | hr
      · rw [he] at hsc; simp_all
      · exact ih acc f hnd2.2 hr hsc
    · rcases List.mem_cons.mp hf with he | hr
      · subst he
        refine ql_unwelded_stable rest _ f ?_ ?_
        · unfold moveFile
          exact List.mem_append_right _ (List.mem_singleton.mpr rfl)
        · intro g hg hgf
          exact hnd2.1 (hgf ▸ List.mem_map_of_mem Prod.fst hg)
      · exact ih _ f hnd2.2 hr hsc

/-- A loose file whose name contains weld_pack is never touched by the
    quarantine loop. -/
theorem ql_skip_stay (l : List (String × String)) :
    ∀ (acc : ContentDir) (f : String × String), f ∈ acc.files →
      strContains f.1 "weld_pack" = true →
      f ∈ (quarantineLoop acc l).files := by
  induction l with
  | nil => intro acc f hf _; exact hf
  | cons e rest ih =>
    intro acc f hf hsc
    simp only [quarantineLoop]
    split
    · exact ih acc f hf hsc
    · refine ih _ f ?_ hsc
      refine List.mem_filter.mpr ⟨hf, ?_⟩
      have hne : ¬(f.1 = e.1) := by
        intro h
        rw [h] at hsc
        simp_all
      simp [hne]

/-- If every listed entry contains weld_pack in its name, the quarantine loop
    changes nothing. -/
theorem ql_skip_all (l : List (String × String)) :
    ∀ acc : ContentDir, (∀ e ∈ l, strContains e.1 "weld_pack" = true) →
      quarantineLoop acc l = acc := by
  induction l with
  | nil => intro acc _; rfl
  | cons e rest ih =>
    intro acc hall
    simp only [quarantineLoop]
    split
    · exact ih acc (fun g hg => hall g (List.mem_cons_of_mem e hg))
    · exact absurd (hall e (List.mem_cons_self e rest)) (by simp_all)


/-- Filtering by one name commutes away a previous removal of a different
    name. -/
theorem filter_name_after_remove (unw : List (String × String)) (n m : String)
    (h : (n == m) = false) :
    (unw.filter (fun g => !(g.1 == m))).filter (fun g => g.1 == n)
      = unw.filter (fun g => g.1 == n) := by
  have hnm : ¬(n = m) := by simpa using h
  rw [List.filter_filter]
  apply List.filter_congr
  intro a _
  by_cases hn : a.1 = n
  · simp [hn, hnm]
  · simp [hn]

/-- For a name containing weld_pack, the loop does not change the set of
    holding-directory entries bearing that name. -/
theorem ql_unwelded_filter (l : List (String × String)) :
    ∀ (acc : ContentDir) (n : String), strContains n "weld_pack" = true →
      (quarantineLoop acc l).unwelded.filter (fun g => g.1 == n)
        = acc.unwelded.filter (fun g => g.1 == n) := by
  induction l with
  | nil => intro acc n _; rfl
  | cons e rest ih =>
    intro acc n hsc
    simp only [quarantineLoop]
    split
    · exact ih acc n hsc
    · rename_i hskip
      rw [ih _ n hsc]
      show (moveFile acc.unwelded e).filter (fun g => g.1 == n)
        = acc.unwelded.filter (fun g => g.1 == n)
      have hne : ¬(e.1 = n) := by
        intro hh
        rw [hh, hsc] at hskip
        simp at hskip
      have hne2 : ¬(n = e.1) := fun hh => hne hh.symm
      unfold moveFile
      rw [List.filter_append, filter_name_after_remove acc.unwelded n e.1 (by simp [hne2])]
      simp [hne]

/-- Removing entries of a different name does not change a lookup by name. -/
theorem find_filter_of_bne (fs : List (String × String)) (n m : String)
    (h : (n == m) = false) :
    (fs.filter (fun f => !(f.1 == m))).find? (fun f => f.1 == n)
      = fs.find? (fun f => f.1 == n) := by
  have hnm : ¬(n = m) := by simpa using h
  induction fs with
  | nil => rfl
  | cons f rest ih =>
    by_cases hn : f.1 = n
    · have hm : ¬(f.1 = m) := fun hfm => hnm (hn ▸ hfm)
      rw [List.filter_cons_of_pos (by simp [hm]), List.find?_cons_of_pos _ (by simp [hn]),
        List.find?_cons_of_pos _ (by simp [hn])]
    · by_cases hm : f.1 = m
      · rw [List.filter_cons_of_neg (by simp [hm]), List.find?_cons_of_neg _ (by simp [hn]), ih]
      · rw [List.filter_cons_of_pos (by simp [hm]), List.find?_cons_of_neg _ (by simp [hn]),
          List.find?_cons_of_neg _ (by simp [hn]), ih]

/-- For a name containing weld_pack, file lookup by that name is unchanged by
    the quarantine loop. -/
theorem ql_getFile (l : List (String × String)) :
    ∀ (acc : ContentDir) (n : String), strContains n "weld_pack" = true →
      getFile (quarantineLoop acc l).files n = getFile acc.files n := by
  induction l with
  | nil => intro acc n _; rfl
  | cons e rest ih =>
    intro acc n hsc
    simp only [quarantineLoop]
    split
    · exact ih acc n hsc
    · rename_i hskip
      rw [ih _ n hsc]
      show getFile (acc.files.filter (fun f => !(f.1 == e.1))) n = getFile acc.files n
      have hne : ¬(n = e.1) := by
        intro hh
        rw [← hh, hsc] at hskip
        simp at hskip
      unfold getFile
      rw [find_filter_of_bne _ _ _ (by simp [hne])]

/-- Every loose file surviving the quarantine phase has weld_pack in its
    name. -/
theorem quarantine_files_strContains (d : ContentDir) :
    ∀ f ∈ (quarantine d).files, strContains f.1 "weld_pack" = true := by
  intro f hf
  rcases Bool.eq_false_or_eq_true (strContains f.1 "weld_pack") with hsc | hsc
  · exact hsc
  · exfalso
    have hmem : f ∈ ({ d with unweldedExists := true } : ContentDir).files :=
      ql_files_subset d.files _ f hf
    exact ql_name_removed d.files { d with unweldedExists := true } f hmem hsc
      (List.mem_map_of_mem Prod.fst hf)

/-- After the quarantine phase the holding directory exists. -/
theorem quarantine_flag (d : ContentDir) : (quarantine d).unweldedExists = true := by
  unfold quarantine
  rw [ql_flag]

/-- The name list of writeFile: unchanged on overwrite, extended by the new
    name on creation. -/
theorem writeFile_names (fs : List (String × String)) (n c : String) :
    (writeFile fs n c).map Prod.fst = fs.map Prod.fst
      ∨ (writeFile fs n c).map Prod.fst = fs.map Prod.fst ++ [n] := by
  unfold writeFile
  split
  · left
    rw [List.map_map]
    apply List.map_congr_left
    intro f _
    by_cases hfn : f.1 = n
    · simp [hfn]
    · simp [hfn]
  · right
    simp

/-- A file of a different name is untouched by writeFile. -/
theorem mem_writeFile_of_ne (fs : List (String × String)) (n c : String)
    (f : String × String) (hf : f ∈ fs) (hne : ¬(f.1 = n)) :
    f ∈ writeFile fs n c := by
  unfold writeFile
  split
  · have hid : (fun g : String × String => if g.1 == n then (n, c) else g) f = f := by
      simp [hne]
    rw [← hid]
    exact List.mem_map_of_mem _ hf
  · exact List.mem_append_left _ hf

/-- writeFile never removes a name. -/
theorem name_mem_writeFile (fs : List (String × String)) (n c : String) (a : String)
    (ha : a ∈ fs.map Prod.fst) : a ∈ (writeFile fs n c).map Prod.fst := by
  rcases writeFile_names fs n c with h | h <;> rw [h]
  · exact ha
  · exact List.mem_append_left _ ha

/-- Every name present after writeFile was present before or is the written
    name. -/
theorem mem_writeFile_names (fs : List (String × String)) (n c : String)
    (f : String × String) (hf : f ∈ writeFile fs n c) :
    f.1 ∈ fs.map Prod.fst ∨ f.1 = n := by
  have hmem := List.mem_map_of_mem Prod.fst hf
  rcases writeFile_names fs n c with h | h <;> rw [h] at hmem
  · exact Or.inl hmem
  · rcases List.mem_append.mp hmem with h2 | h2
    · exact Or.inl h2
    · exact Or.inr (List.mem_singleton.mp h2)

/-- Writing the same content twice is the same as writing it once. -/
theorem writeFile_idem (fs : List (String × String)) (n c : String) :
    writeFile (writeFile fs n c) n c = writeFile fs n c := by
  by_cases hany : fs.any (fun f => f.1 == n) = true
  · have h1 : writeFile fs n c = fs.map (fun f => if f.1 == n then (n, c) else f) := by
      unfold writeFile
      rw [if_pos hany]
    have hany2 : (fs.map (fun f => if f.1 == n then (n, c) else f)).any
        (fun f => f.1 == n) = true := by
      rw [List.any_map]
      obtain ⟨f, hf, hfn⟩ := List.any_eq_true.mp hany
      refine List.any_eq_true.mpr ⟨f, hf, ?_⟩
      simp only [Function.comp_apply]
      rw [if_pos hfn]
      simp
    rw [h1]
    unfold writeFile
    rw [if_pos hany2, List.map_map]
    apply List.map_congr_left
    intro f _
    by_cases hfn : f.1 = n
    · simp [hfn]
    · simp [hfn]
  · have hany' : fs.any (fun f => f.1 == n) = false := eq_false_of_ne_true hany
    have h1 : writeFile fs n c = fs ++ [(n, c)] := by
      unfold writeFile
      rw [if_neg hany]
    rw [h1]
    unfold writeFile
    have hany2 : (fs ++ [(n, c)]).any (fun f => f.1 == n) = true := by
      rw [List.any_append]
      simp
    rw [if_pos hany2, List.map_append]
    have h2 : fs.map (fun f => if f.1 == n then (n, c) else f) = fs := by
      have hpt : ∀ f ∈ fs, (if f.1 == n then (n, c) else f) = f := by
        intro f hf
        rw [if_neg]
        intro hfn
        have hx : fs.any (fun g => g.1 == n) = true := List.any_eq_true.mpr ⟨f, hf, hfn⟩
        rw [hany'] at hx
        simp at hx
      calc fs.map (fun f => if f.1 == n then (n, c) else f)
          = fs.map (fun f => f) := List.map_congr_left hpt
        _ = fs := List.map_id' fs
    rw [h2]
    simp

/-- The body of run emits either the leading events only or the leading and
    trailing events. -/
theorem runBody_events (arg : Json) (m : List String → Except PyErr String) (fs : Fs) :
    (runBody arg m fs).1 = preEvents ∨ (runBody arg m fs).1 = preEvents ++ postEvents := by
  unfold runBody
  split
  · left; rfl
  · split
    · left; rfl
    · split
      · left; rfl
      · right; rfl

/-- run emits no events, the leading events only, or the leading and trailing
    events. -/
theorem run_events (hook : String) (argv2 : Option (Except PyErr Json))
    (m : List String → Except PyErr String) (fs : Fs) :
    (run hook argv2 m fs).1 = [] ∨ (run hook argv2 m fs).1 = preEvents
      ∨ (run hook argv2 m fs).1 = preEvents ++ postEvents := by
  unfold run
  split
  · split
    · left; rfl
    · left; rfl
    · split
      · left; rfl
      · split
        · left; rfl
        · rcases runBody_events _ m fs with h | h
          · right; left; exact h
          · right; right; exact h
  · left; rfl

/-- run itself never emits a set_result event. -/
theorem run_countP (hook : String) (argv2 : Option (Except PyErr Json))
    (m : List String → Except PyErr String) (fs : Fs) :
    ((run hook argv2 m fs).1).countP Event.isSetResult = 0 := by
  rcases run_events hook argv2 m fs with h | h | h <;> rw [h] <;> decide

/-- Claim C1, counterexample: a loose regular file named old_weld_pack is not
    the reserved Merged Artifact, yet after one merge pass it is still loose
    in the Content Directory and is not inside the Holding Area, because the
    skip test is substring containment of weld_pack. -/
theorem C1_counterexample :
    ("old_weld_pack", "data") ∈ dirWeldPackName.files ∧
    ¬("old_weld_pack" = "weld_pack.zip") ∧
    ("old_weld_pack", "data") ∉ (weld_dir mergeConst "d" dirWeldPackName).unwelded ∧
    ("old_weld_pack", "data") ∈ (weld_dir mergeConst "d" dirWeldPackName).files := by
  decide

/-- Claim C1, amended: for any set of regular files placed loose in a Content
    Directory before a merge, none of whose names contain weld_pack as a
    substring and none named unwelded, with pairwise distinct names, after
    one merge pass every one of those files exists, unmodified, inside the
    Holding Area, and none of them remain loose in the Content Directory. -/
theorem C1_amended_nonloss (m : List String → String) (p : String) (d : ContentDir)
    (hnd : (d.files.map Prod.fst).Nodup)
    (_hunw : ¬("unwelded" ∈ d.files.map Prod.fst)) :
    ∀ f ∈ d.files, strContains f.1 "weld_pack" = false →
      f ∈ (weld_dir m p d).unwelded ∧ f.1 ∉ (weld_dir m p d).files.map Prod.fst := by
  intro f hf hsc
  constructor
  · show f ∈ (quarantine d).unwelded
    exact ql_moved d.files _ f hnd hf hsc
  · intro hmem
    have hmem2 : f.1 ∈ (writeFile (quarantine d).files "weld_pack.zip"
        (m (weldPacksArg p (quarantine d)))).map Prod.fst := hmem
    obtain ⟨g, hg, hg1⟩ := List.mem_map.mp hmem2
    rcases mem_writeFile_names _ _ _ g hg with h | h
    · rw [hg1] at h
      exact ql_name_removed d.files { d with unweldedExists := true } f hf hsc h
    · rw [hg1] at h
      have hx : strContains "weld_pack.zip" "weld_pack" = false := by
        rw [← h]
        exact hsc
      have hy : strContains "weld_pack.zip" "weld_pack" = true := by decide
      rw [hy] at hx
      simp at hx

/-- Claim C1, witness for the amended theorem: in a directory with two plain
    pack files, the file a.zip ends up inside the Holding Area and no longer
    loose. -/
theorem C1_amended_nonloss_witness :
    ("a.zip", "x") ∈ (weld_dir mergeConst "d" dirTwoPacks).unwelded ∧
    ("a.zip" : String) ∉ (weld_dir mergeConst "d" dirTwoPacks).files.map Prod.fst :=
  C1_amended_nonloss mergeConst "d" dirTwoPacks (by decide) (by decide)
    ("a.zip", "x") (by decide) (by decide)

/-- Claim C2, code concern: the pack paths handed to the merge capability are
    the unwelded entry names joined under the Content Directory itself, not
    under the Holding Area, so for a directory whose Holding Area holds a.zip
    the capability receives d/a.zip instead of d/unwelded/a.zip. -/
theorem C2_packs_joined_under_dir :
    weldPacksArg "d" (quarantine dirOnePack) = ["d/a.zip"] ∧
    ¬(weldPacksArg "d" (quarantine dirOnePack)
        = (quarantine dirOnePack).unwelded.map (fun e => joinp (joinp "d" "unwelded") e.1)) := by
  decide

/-- Claim C3, code concern: for a client invocation without datapack_folder
    override whose saves directory holds the subdirectories A and B, the
    resolver raises AttributeError instead of returning the two save
    directories, because the source calls the nonexistent join attribute of
    Path on each discovered save name. -/
theorem C3_client_resolution_raises :
    resolveDirs clientArg savesFs = Except.error PyErr.attributeError ∧
    ¬(resolveDirs clientArg savesFs
        = Except.ok ("root", [joinp (joinp "root" "saves") "A",
                              joinp (joinp "root" "saves") "B"])) := by
  constructor
  · rfl
  · intro hcontra
    rw [show resolveDirs clientArg savesFs = Except.error PyErr.attributeError from rfl]
      at hcontra
    exact Except.noConfusion hcontra

/-- Claim C4, confirmed: merging the same Content Directory twice in
    succession with the same deterministic merge capability yields a Holding
    Area with identical contents after either run and an identical Merged
    Artifact. -/
theorem C4_idempotent (m : List String → String) (p : String) (d : ContentDir) :
    (weld_dir m p (weld_dir m p d)).unwelded = (weld_dir m p d).unwelded ∧
    getFile (weld_dir m p (weld_dir m p d)).files "weld_pack.zip"
      = getFile (weld_dir m p d).files "weld_pack.zip" := by
  have hall : ∀ f ∈ (weld_dir m p d).files, strContains f.1 "weld_pack" = true := by
    intro f hf
    have hf2 : f ∈ writeFile (quarantine d).files "weld_pack.zip"
        (m (weldPacksArg p (quarantine d))) := hf
    rcases mem_writeFile_names _ _ _ f hf2 with h | h
    · obtain ⟨g, hg, hg1⟩ := List.mem_map.mp h
      rw [← hg1]
      exact quarantine_files_strContains d g hg
    · rw [h]
      decide
  have hq : quarantine (weld_dir m p d)
      = { (weld_dir m p d) with unweldedExists := true } := by
    unfold quarantine
    exact ql_skip_all (weld_dir m p d).files _ (fun e he => hall e he)
  constructor
  · show (quarantine (weld_dir m p d)).unwelded = (weld_dir m p d).unwelded
    rw [hq]
  · show getFile (writeFile (quarantine (weld_dir m p d)).files "weld_pack.zip"
        (m (weldPacksArg p (quarantine (weld_dir m p d))))) "weld_pack.zip"
      = getFile (weld_dir m p d).files "weld_pack.zip"
    rw [hq]
    show getFile (writeFile (writeFile (quarantine d).files "weld_pack.zip"
        (m (weldPacksArg p (quarantine d)))) "weld_pack.zip"
        (m (weldPacksArg p (quarantine d)))) "weld_pack.zip"
      = getFile (writeFile (quarantine d).files "weld_pack.zip"
        (m (weldPacksArg p (quarantine d)))) "weld_pack.zip"
    rw [writeFile_idem]

set_option maxRecDepth 8192 in
/-- Claim C5, counterexample: the emitted set_result line is not the sentinel
    followed by the object whose set_result value is the fixed result object,
    because the module body serializes the object itself before handing it to
    output, which serializes again. -/
theorem C5_counterexample :
    ¬(setResultLine = claimedSetResultLine) := by
  decide

set_option maxRecDepth 8192 in
/-- Claim C5, amended: the set_result payload is the JSON string literal
    containing the serialization of the fixed result object, so the emitted
    protocol line is the sentinel followed by the object whose set_result
    value is that string literal. -/
theorem C5_amended_line :
    setResultLine
      = "%_\x7b\"set_result\": \"\x7b\\\"main_class_override\\\": null, \\\"jar_path_override\\\": null, \\\"classpath_extension\\\": []\x7d\"\x7d" := by
  rfl

/-- Claim C6, confirmed: on every invocation on which the hook handler
    returns normally, the module body emits exactly one set_result event,
    after all events of the handler. -/
theorem C6_set_result_once (hook : String) (argv2 : Option (Except PyErr Json))
    (m : List String → Except PyErr String) (fs : Fs)
    (h : (run hook argv2 m fs).2.2 = none) :
    (program hook argv2 m fs).1
        = (run hook argv2 m fs).1 ++ [Event.set_result setResultData] ∧
    ((program hook argv2 m fs).1).countP Event.isSetResult = 1 := by
  have hp : (program hook argv2 m fs).1
      = (run hook argv2 m fs).1 ++ [Event.set_result setResultData] := by
    unfold program
    rw [h]
  refine ⟨hp, ?_⟩
  rw [hp, List.countP_append, run_countP]
  rfl

/-- Claim C6, witness: an unrecognized hook name returns normally with no
    events, and the module body emits the single set_result event after it. -/
theorem C6_set_result_once_witness :
    (program "other_hook" none mergeOk []).1
        = (run "other_hook" none mergeOk []).1 ++ [Event.set_result setResultData] ∧
    ((program "other_hook" none mergeOk []).1).countP Event.isSetResult = 1 :=
  C6_set_result_once "other_hook" none mergeOk [] rfl

/-- Claim C7, confirmed: a recognized hook whose context carries a shallow
    update_depth performs no filesystem mutation, emits none of
    start_process, message or end_process, and the module body emits
    set_result exactly once. -/
theorem C7_shallow_noop (arg : Json) (m : List String → Except PyErr String) (fs : Fs)
    (h : getKey arg "update_depth" = Except.ok (Json.str "shallow")) :
    run "on_instance_setup" (some (Except.ok arg)) m fs = ([], fs, none) ∧
    program "on_instance_setup" (some (Except.ok arg)) m fs
      = ([Event.set_result setResultData], fs) := by
  have hr : run "on_instance_setup" (some (Except.ok arg)) m fs = ([], fs, none) := by
    show (match getKey arg "update_depth" with
      | Except.error e => ([], fs, some e)
      | Except.ok ud => if jEqStr ud "shallow" = true then ([], fs, none) else runBody arg m fs)
      = ([], fs, none)
    rw [h]
    rfl
  refine ⟨hr, ?_⟩
  unfold program
  rw [hr]
  rfl

/-- Claim C7, witness: the concrete shallow context at an empty filesystem. -/
theorem C7_shallow_noop_witness :
    run "on_instance_setup" (some (Except.ok shallowArg)) mergeOk [] = ([], [], none) ∧
    program "on_instance_setup" (some (Except.ok shallowArg)) mergeOk []
      = ([Event.set_result setResultData], []) :=
  C7_shallow_noop shallowArg mergeOk [] rfl

/-- Claim C8, confirmed: when the merge capability raises, the exception
    propagates, the state is exactly the post-quarantine state with no
    artifact write, and the files already moved into the Holding Area stay
    there; in particular any prior artifact entry is unchanged. -/
theorem C8_merge_failure (m : List String → Except PyErr String) (p : String)
    (d : ContentDir) (e : PyErr)
    (h : m (weldPacksArg p (quarantine d)) = Except.error e) :
    (weld_dirS m p d).2 = some e ∧
    (weld_dirS m p d).1 = quarantine d ∧
    getFile ((weld_dirS m p d).1).files "weld_pack.zip" = getFile d.files "weld_pack.zip" := by
  have h1 : weld_dirS m p d = (quarantine d, some e) := by
    unfold weld_dirS
    rw [h]
  refine ⟨by rw [h1], by rw [h1], ?_⟩
  rw [h1]
  show getFile (quarantine d).files "weld_pack.zip" = getFile d.files "weld_pack.zip"
  unfold quarantine
  exact ql_getFile d.files _ "weld_pack.zip" (by decide)

/-- Claim C8, witness: the failing capability on a directory with one loose
    pack file. -/
theorem C8_merge_failure_witness :
    (weld_dirS mergeFail "d" dirOnePack).2 = some PyErr.runWeldError ∧
    (weld_dirS mergeFail "d" dirOnePack).1 = quarantine dirOnePack ∧
    getFile ((weld_dirS mergeFail "d" dirOnePack).1).files "weld_pack.zip"
      = getFile dirOnePack.files "weld_pack.zip" :=
  C8_merge_failure mergeFail "d" dirOnePack PyErr.runWeldError rfl

/-- Claim C9, confirmed: every directory entry whose name contains weld_pack
    anywhere is left loose in the Content Directory by weld_dir (kept with
    its content unless it is the artifact name itself, which is only
    overwritten in place), and nothing of that name is moved into the Holding
    Area. -/
theorem C9_substring_skip (m : List String → String) (p : String) (d : ContentDir) :
    ∀ f ∈ d.files, strContains f.1 "weld_pack" = true →
      f.1 ∈ ((weld_dir m p d).files).map Prod.fst ∧
      (¬(f.1 = "weld_pack.zip") → f ∈ (weld_dir m p d).files) ∧
      ((weld_dir m p d).unwelded).filter (fun g => g.1 == f.1)
        = d.unwelded.filter (fun g => g.1 == f.1) := by
  intro f hf hsc
  have hq : f ∈ (quarantine d).files := ql_skip_stay d.files _ f hf hsc
  refine ⟨?_, ?_, ?_⟩
  · show f.1 ∈ (writeFile (quarantine d).files "weld_pack.zip"
        (m (weldPacksArg p (quarantine d)))).map Prod.fst
    exact name_mem_writeFile _ _ _ f.1 (List.mem_map_of_mem Prod.fst hq)
  · intro hne
    show f ∈ writeFile (quarantine d).files "weld_pack.zip"
        (m (weldPacksArg p (quarantine d)))
    exact mem_writeFile_of_ne _ _ _ f hq hne
  · show (quarantine d).unwelded.filter (fun g => g.1 == f.1)
      = d.unwelded.filter (fun g => g.1 == f.1)
    unfold quarantine
    exact ql_unwelded_filter d.files _ f.1 hsc

/-- Claim C9, witness: the backup-named file stays loose with its content and
    is never moved into the Holding Area. -/
theorem C9_substring_skip_witness :
    ("my_weld_pack_backup.zip" : String)
        ∈ ((weld_dir mergeConst "d" dirBackupName).files).map Prod.fst ∧
    (¬("my_weld_pack_backup.zip" = "weld_pack.zip") →
      ("my_weld_pack_backup.zip", "backup") ∈ (weld_dir mergeConst "d" dirBackupName).files) ∧
    ((weld_dir mergeConst "d" dirBackupName).unwelded).filter
        (fun g => g.1 == "my_weld_pack_backup.zip")
      = dirBackupName.unwelded.filter (fun g => g.1 == "my_weld_pack_backup.zip") :=
  C9_substring_skip mergeConst "d" dirBackupName ("my_weld_pack_backup.zip", "backup")
    (by decide) (by decide)

/-- Claim C10, confirmed: when the hook handler raises, the module body never
    reaches the set_result emission, so no set_result event is emitted. -/
theorem C10_error_no_set_result (hook : String) (argv2 : Option (Except PyErr Json))
    (m : List String → Except PyErr String) (fs : Fs) (e : PyErr)
    (h : (run hook argv2 m fs).2.2 = some e) :
    ((program hook argv2 m fs).1).countP Event.isSetResult = 0 := by
  have hp : (program hook argv2 m fs).1 = (run hook argv2 m fs).1 := by
    unfold program
    rw [h]
  rw [hp]
  exact run_countP hook argv2 m fs

/-- Claim C10, witness: a malformed JSON context on the recognized hook
    raises before any event, and no set_result is emitted. -/
theorem C10_error_no_set_result_witness :
    ((program "on_instance_setup" (some (Except.error PyErr.jsonDecodeError))
        mergeOk []).1).countP Event.isSetResult = 0 :=
  C10_error_no_set_result "on_instance_setup" (some (Except.error PyErr.jsonDecodeError))
    mergeOk [] PyErr.jsonDecodeError rfl
